import Mathlib

/-!
Verification of the PE DYNAMIC_BASE flag patcher
(src/NoDynamicBase.cpp, function fix_pe_clear_dynamic_base).

The C function receives a byte buffer (uint8_t＊ buf, size_t size), parses the
DOS header, follows e_lfanew to the NT header, classifies the optional header
as PE32 (magic 0x10B) or PE32+ (magic 0x20B), and clears bit 0x0040
(IMAGE_DLLCHARACTERISTICS_DYNAMIC_BASE) of the 16-bit DllCharacteristics
field in place.

The embedding models the buffer as a List Nat of bytes, every memory access as
a bounds-checked Option read/write at a signed (Int) address relative to the
start of the buffer, and size_t arithmetic modulo 2^64 (the build target is
x86_64, so size_t is 64 bits and the signed 32-bit e_lfanew is sign-extended
when cast).  An execution that would touch a byte outside [0, size) in C is
undefined behaviour; the model returns none for such executions.
-/

set_option maxRecDepth 40000

/-- Modulus of 32-bit unsigned arithmetic. -/
def U32_MOD : Nat := 4294967296

/-- Modulus of 64-bit size_t arithmetic. -/
def SIZE_T_MOD : Nat := 18446744073709551616

/-- Read one byte at a signed address: none when the address is outside the
buffer.  A uint8_t load yields a value below 256, hence the mod. -/
def byteAt? (buf : List Nat) (i : Int) : Option Nat :=
  if 0 ≤ i then (buf.get? i.toNat).map (fun b => b % 256) else none

/-- Little-endian 16-bit load (a WORD in the source). -/
def readLE16at? (buf : List Nat) (i : Int) : Option Nat :=
  (byteAt? buf i).bind fun b0 =>
    (byteAt? buf (i + 1)).map fun b1 => b0 + 256 * b1

/-- Little-endian 32-bit load (a DWORD / LONG in the source). -/
def readLE32at? (buf : List Nat) (i : Int) : Option Nat :=
  (byteAt? buf i).bind fun b0 =>
    (byteAt? buf (i + 1)).bind fun b1 =>
      (byteAt? buf (i + 2)).bind fun b2 =>
        (byteAt? buf (i + 3)).map fun b3 =>
          b0 + 256 * b1 + 65536 * b2 + 16777216 * b3

/-- Store one byte at a signed address: none when the address is outside the
buffer. -/
def setByte? (buf : List Nat) (i : Int) (v : Nat) : Option (List Nat) :=
  if 0 ≤ i ∧ i.toNat < buf.length then some (buf.set i.toNat (v % 256)) else none

/-- Little-endian 16-bit store (assignment to the WORD DllCharacteristics). -/
def writeLE16at? (buf : List Nat) (i : Int) (v : Nat) : Option (List Nat) :=
  (setByte? buf i v).bind fun buf1 => setByte? buf1 (i + 1) (v / 256)

/-- Value of a stored unsigned 32-bit word reinterpreted as the signed LONG
e_lfanew (two's complement). -/
def signedOfU32 (u : Nat) : Int :=
  if u < 2147483648 then (u : Int) else (u : Int) - (U32_MOD : Int)

/-- Cast of a signed value to the 64-bit size_t (two's complement
sign extension), as in (size_t)dos->e_lfanew. -/
def toSizeT (s : Int) : Nat := (s % (SIZE_T_MOD : Int)).toNat

/-!
Struct layouts from winnt.h, the header the source includes.  Each list holds
the byte sizes of the fields of one struct, in declaration order; an offset is
the sum of the sizes of the preceding fields, and sizeof is the sum of all of
them (these structs have no padding).
-/

/-- Field sizes of IMAGE_DOS_HEADER: e_magic, e_cblp, e_cp, e_crlc, e_cparhdr,
e_minalloc, e_maxalloc, e_ss, e_sp, e_csum, e_ip, e_cs, e_lfarlc, e_ovno
(fourteen WORDs), e_res (four WORDs), e_oemid, e_oeminfo, e_res2 (ten WORDs),
e_lfanew (LONG). -/
def dosHeaderSizes : List Nat :=
  [2, 2, 2, 2, 2, 2, 2, 2, 2, 2, 2, 2, 2, 2, 8, 2, 2, 20, 4]

/-- Field sizes of IMAGE_FILE_HEADER: Machine, NumberOfSections,
TimeDateStamp, PointerToSymbolTable, NumberOfSymbols, SizeOfOptionalHeader,
Characteristics. -/
def fileHeaderSizes : List Nat := [2, 2, 4, 4, 4, 2, 2]

/-- Field sizes of IMAGE_OPTIONAL_HEADER32: Magic, MajorLinkerVersion,
MinorLinkerVersion, SizeOfCode, SizeOfInitializedData, SizeOfUninitializedData,
AddressOfEntryPoint, BaseOfCode, BaseOfData, ImageBase (DWORD),
SectionAlignment, FileAlignment, MajorOperatingSystemVersion,
MinorOperatingSystemVersion, MajorImageVersion, MinorImageVersion,
MajorSubsystemVersion, MinorSubsystemVersion, Win32VersionValue, SizeOfImage,
SizeOfHeaders, CheckSum, Subsystem, DllCharacteristics (index 23),
SizeOfStackReserve, SizeOfStackCommit, SizeOfHeapReserve, SizeOfHeapCommit
(DWORDs), LoaderFlags, NumberOfRvaAndSizes, DataDirectory (sixteen 8-byte
entries). -/
def optionalHeader32Sizes : List Nat :=
  [2, 1, 1, 4, 4, 4, 4, 4, 4, 4, 4, 4, 2, 2, 2, 2, 2, 2, 4, 4, 4, 4, 2, 2,
   4, 4, 4, 4, 4, 4, 128]

/-- Field sizes of IMAGE_OPTIONAL_HEADER64: as the 32-bit layout but with no
BaseOfData and with ImageBase widened to a ULONGLONG (8 bytes, index 8);
DllCharacteristics is at index 22; SizeOfStackReserve, SizeOfStackCommit,
SizeOfHeapReserve, SizeOfHeapCommit are ULONGLONGs. -/
def optionalHeader64Sizes : List Nat :=
  [2, 1, 1, 4, 4, 4, 4, 4, 8, 4, 4, 2, 2, 2, 2, 2, 2, 4, 4, 4, 4, 2, 2,
   8, 8, 8, 8, 4, 4, 128]

/-- sizeof(IMAGE_DOS_HEADER), the minimum accepted buffer length. -/
def sizeof_IMAGE_DOS_HEADER : Nat := dosHeaderSizes.sum

/-- Offset of the e_lfanew field inside IMAGE_DOS_HEADER (sum of the sizes of
the eighteen fields before it). -/
def off_e_lfanew : Nat := (dosHeaderSizes.take 18).sum

/-- sizeof(IMAGE_NT_HEADERS64): DWORD Signature, then the file header, then
the 64-bit optional header.  Used as the conservative bounds-check size. -/
def sizeof_IMAGE_NT_HEADERS64 : Nat :=
  4 + fileHeaderSizes.sum + optionalHeader64Sizes.sum

/-- Offset of OptionalHeader within IMAGE_NT_HEADERS32/64 (identical in both:
DWORD Signature plus the file header). -/
def off_OptionalHeader : Nat := 4 + fileHeaderSizes.sum

/-- Offset, relative to the NT header, of DllCharacteristics when the optional
header uses the 64-bit layout (field index 22). -/
def off_DllCharacteristics64 : Nat :=
  off_OptionalHeader + (optionalHeader64Sizes.take 22).sum

/-- Offset, relative to the NT header, of DllCharacteristics when the optional
header uses the 32-bit layout (field index 23). -/
def off_DllCharacteristics32 : Nat :=
  off_OptionalHeader + (optionalHeader32Sizes.take 23).sum

/-- IMAGE_DOS_SIGNATURE, the little-endian WORD made of the bytes M, Z. -/
def IMAGE_DOS_SIGNATURE : Nat := 23117

/-- IMAGE_NT_SIGNATURE, the little-endian DWORD made of P, E, 0, 0. -/
def IMAGE_NT_SIGNATURE : Nat := 17744

/-- IMAGE_NT_OPTIONAL_HDR64_MAGIC = 0x20B. -/
def HDR64_MAGIC : Nat := 523

/-- IMAGE_NT_OPTIONAL_HDR32_MAGIC = 0x10B. -/
def HDR32_MAGIC : Nat := 267

/-- IMAGE_DLLCHARACTERISTICS_DYNAMIC_BASE = 0x0040. -/
def DYNAMIC_BASE : Nat := 64

/-- The 32-bit int value of the C expression ~0x0040 (two's complement of -65),
the mask the source ANDs DllCharacteristics with. -/
def NOT_DYNAMIC_BASE_INT : Nat := 4294967231

/-- Failure reasons, one per reason string in the source. -/
inductive FixError
  | TooSmall
  | NotAPEFile
  | InvalidHeaderOffset
  | MissingPESignature
  | UnknownOptionalHeaderType
deriving DecidableEq

/-- What the C function communicates back: its bool return value, the
＊modified out-parameter, and the reason (written only on failure). -/
structure FixRet where
  ok : Bool
  modified : Bool
  err : Option FixError
deriving DecidableEq

/-- Shallow embedding of fix_pe_clear_dynamic_base (src lines 65-113).
The result pairs the returned FixRet with the buffer after the call; none
means the execution performed a memory access outside [0, size), which in the
C original is an out-of-bounds pointer dereference. -/
def fix_pe_clear_dynamic_base (buf : List Nat) : Option (FixRet × List Nat) :=
  if buf.length < sizeof_IMAGE_DOS_HEADER then
    some ({ ok := false, modified := false, err := some FixError.TooSmall }, buf)
  else
    match readLE16at? buf 0 with
    | none => none
    | some e_magic =>
      if e_magic ≠ IMAGE_DOS_SIGNATURE then
        some ({ ok := false, modified := false, err := some FixError.NotAPEFile }, buf)
      else
        match readLE32at? buf (off_e_lfanew : Int) with
        | none => none
        | some u =>
          if (toSizeT (signedOfU32 u) + sizeof_IMAGE_NT_HEADERS64) % SIZE_T_MOD
              > buf.length then
            some ({ ok := false, modified := false,
                    err := some FixError.InvalidHeaderOffset }, buf)
          else
            match readLE32at? buf (signedOfU32 u) with
            | none => none
            | some sig =>
              if sig ≠ IMAGE_NT_SIGNATURE then
                some ({ ok := false, modified := false,
                        err := some FixError.MissingPESignature }, buf)
              else
                match readLE16at? buf (signedOfU32 u + (off_OptionalHeader : Int)) with
                | none => none
                | some magic =>
                  if magic = HDR64_MAGIC then
                    match readLE16at? buf
                        (signedOfU32 u + (off_DllCharacteristics64 : Int)) with
                    | none => none
                    | some old =>
                      if old &&& DYNAMIC_BASE ≠ 0 then
                        match writeLE16at? buf
                            (signedOfU32 u + (off_DllCharacteristics64 : Int))
                            ((old &&& NOT_DYNAMIC_BASE_INT) % 65536) with
                        | none => none
                        | some buf2 =>
                          some ({ ok := true, modified := true, err := none }, buf2)
                      else
                        some ({ ok := true, modified := false, err := none }, buf)
                  else if magic = HDR32_MAGIC then
                    match readLE16at? buf
                        (signedOfU32 u + (off_DllCharacteristics32 : Int)) with
                    | none => none
                    | some old =>
                      if old &&& DYNAMIC_BASE ≠ 0 then
                        match writeLE16at? buf
                            (signedOfU32 u + (off_DllCharacteristics32 : Int))
                            ((old &&& NOT_DYNAMIC_BASE_INT) % 65536) with
                        | none => none
                        | some buf2 =>
                          some ({ ok := true, modified := true, err := none }, buf2)
                      else
                        some ({ ok := true, modified := false, err := none }, buf)
                  else
                    some ({ ok := false, modified := false,
                            err := some FixError.UnknownOptionalHeaderType }, buf)

/-- Positions at which two buffers hold different bytes. -/
def diffIndices (a b : List Nat) : List Nat :=
  (List.range (max a.length b.length)).filter (fun i => a.get? i ≠ b.get? i)

/-- A synthetic minimal PE32+ image: MZ, e_lfanew = 64, PE signature at 64,
zeroed file header, optional-header magic 0x20B, DllCharacteristics bytes
lo, hi at absolute offset 158, total length 328 = 64 + 264. -/
def pe64buf (lo hi : Nat) : List Nat :=
  [77, 90] ++ List.replicate 58 0 ++ [64, 0, 0, 0] ++
  [80, 69, 0, 0] ++ List.replicate 20 0 ++ [11, 2] ++
  List.replicate 68 0 ++ [lo, hi] ++ List.replicate 168 0

/-- A synthetic minimal PE32 image: identical to pe64buf except the
optional-header magic is 0x10B. -/
def pe32buf (lo hi : Nat) : List Nat :=
  [77, 90] ++ List.replicate 58 0 ++ [64, 0, 0, 0] ++
  [80, 69, 0, 0] ++ List.replicate 20 0 ++ [11, 1] ++
  List.replicate 68 0 ++ [lo, hi] ++ List.replicate 168 0

/-- Ten zero bytes: the spec scenario for a too-small buffer. -/
def zeros10 : List Nat := List.replicate 10 0

/-- Sixty-four zero bytes: long enough, but the DOS signature is absent. -/
def zeros64 : List Nat := List.replicate 64 0

/-- A 64-byte buffer with the DOS signature and a stored e_lfanew of
0xFFFFFF38, the signed LONG value -200: the size_t bounds check wraps to 64
and passes although the NT header would start 200 bytes before the buffer. -/
def wrapBuf200 : List Nat := [77, 90] ++ List.replicate 58 0 ++ [56, 255, 255, 255]

/-- A 64-byte buffer with the DOS signature and a stored e_lfanew of
0xFFFFFEF8, the signed LONG value -264: the size_t bounds check wraps to 0
and passes. -/
def wrapBuf264 : List Nat := [77, 90] ++ List.replicate 58 0 ++ [248, 254, 255, 255]

/-- A 64-byte buffer with the DOS signature and e_lfanew = 4096, far past the
end of the buffer. -/
def farLfanewBuf : List Nat := [77, 90] ++ List.replicate 58 0 ++ [0, 16, 0, 0]

/-- Everything the modified path of fix_pe_clear_dynamic_base establishes:
the header checks it passed (with e_lfanew nonnegative, so the signed and the
unsigned reading agree), the DllCharacteristics word it read at absolute
offset e_lfanew + 94, and the two-byte store it performed there. -/
def ModSpec (buf buf2 : List Nat) : Prop :=
  ∃ u old,
    64 ≤ buf.length ∧
    readLE16at? buf 0 = some IMAGE_DOS_SIGNATURE ∧
    readLE32at? buf 60 = some u ∧
    u < 2147483648 ∧
    u + 264 ≤ buf.length ∧
    readLE32at? buf (u : Int) = some IMAGE_NT_SIGNATURE ∧
    (∃ m, readLE16at? buf ((u : Int) + 24) = some m ∧
      (m = HDR64_MAGIC ∨ m = HDR32_MAGIC)) ∧
    readLE16at? buf ((u : Int) + 94) = some old ∧
    old &&& DYNAMIC_BASE ≠ 0 ∧
    writeLE16at? buf ((u : Int) + 94) ((old &&& NOT_DYNAMIC_BASE_INT) % 65536)
      = some buf2

/-!  Basic facts about the byte-level model.  -/

lemma sizeof_dos_eq : sizeof_IMAGE_DOS_HEADER = 64 := by decide

lemma sizeof_nt64_eq : sizeof_IMAGE_NT_HEADERS64 = 264 := by decide

lemma off_e_lfanew_eq : off_e_lfanew = 60 := by decide

lemma off_OptionalHeader_eq : off_OptionalHeader = 24 := by decide

lemma off_dll64_eq : off_DllCharacteristics64 = 94 := by decide

lemma off_dll32_eq : off_DllCharacteristics32 = 94 := by decide

lemma byteAt?_neg (buf : List Nat) (i : Int) (h : i < 0) : byteAt? buf i = none := by
  unfold byteAt?
  rw [if_neg (by omega)]

lemma byteAt?_lt (buf : List Nat) (i : Int) (b : Nat) (h : byteAt? buf i = some b) :
    b < 256 := by
  unfold byteAt? at h
  split at h
  · match hg : buf.get? i.toNat with
    | none => rw [hg] at h; exact Option.noConfusion h
    | some x =>
        rw [hg] at h
        simp only [Option.map_some', Option.some.injEq] at h
        omega
  · exact Option.noConfusion h

lemma readLE16at?_lt (buf : List Nat) (i : Int) (v : Nat)
    (h : readLE16at? buf i = some v) : v < 65536 := by
  unfold readLE16at? at h
  match h0 : byteAt? buf i, h1 : byteAt? buf (i + 1) with
  | some b0, some b1 =>
      rw [h0, h1] at h
      simp only [Option.some_bind, Option.map_some', Option.some.injEq] at h
      have := byteAt?_lt buf i b0 h0
      have := byteAt?_lt buf (i + 1) b1 h1
      omega
  | some b0, none => rw [h0, h1] at h; simp at h
  | none, _ => rw [h0] at h; simp at h

lemma readLE32at?_nonneg (buf : List Nat) (i : Int) (u : Nat)
    (h : readLE32at? buf i = some u) : 0 ≤ i := by
  by_contra hneg
  push_neg at hneg
  unfold readLE32at? at h
  rw [byteAt?_neg buf i hneg] at h
  simp at h

lemma readLE32at?_lt (buf : List Nat) (i : Int) (u : Nat)
    (h : readLE32at? buf i = some u) : u < 4294967296 := by
  unfold readLE32at? at h
  match h0 : byteAt? buf i, h1 : byteAt? buf (i + 1),
        h2 : byteAt? buf (i + 2), h3 : byteAt? buf (i + 3) with
  | some b0, some b1, some b2, some b3 =>
      rw [h0, h1, h2, h3] at h
      simp only [Option.some_bind, Option.map_some', Option.some.injEq] at h
      have := byteAt?_lt buf i b0 h0
      have := byteAt?_lt buf (i + 1) b1 h1
      have := byteAt?_lt buf (i + 2) b2 h2
      have := byteAt?_lt buf (i + 3) b3 h3
      omega
  | some b0, some b1, some b2, none => rw [h0, h1, h2, h3] at h; simp at h
  | some b0, some b1, none, _ => rw [h0, h1, h2] at h; simp at h
  | some b0, none, _, _ => rw [h0, h1] at h; simp at h
  | none, _, _, _ => rw [h0] at h; simp at h

lemma signedOfU32_small (u : Nat) (h : u < 2147483648) : signedOfU32 u = (u : Int) := by
  unfold signedOfU32
  rw [if_pos h]

lemma signedOfU32_neg (u : Nat) (h1 : 2147483648 ≤ u) (h2 : u < 4294967296) :
    signedOfU32 u < 0 := by
  unfold signedOfU32
  rw [if_neg (by omega)]
  unfold U32_MOD
  omega

lemma check_small (u : Nat) (h : u < 2147483648) :
    (toSizeT (signedOfU32 u) + 264) % SIZE_T_MOD = u + 264 := by
  rw [signedOfU32_small u h]
  unfold toSizeT SIZE_T_MOD
  rw [Int.emod_eq_of_lt (by omega) (by omega)]
  rw [Int.toNat_natCast]
  exact Nat.mod_eq_of_lt (by omega)

lemma setByte?_eq (buf : List Nat) (i : Int) (v : Nat) (out : List Nat)
    (h : setByte? buf i v = some out) :
    ∃ n : Nat, i = (n : Int) ∧ n < buf.length ∧ out = buf.set n (v % 256) := by
  unfold setByte? at h
  split at h
  · next hc =>
      refine ⟨i.toNat, ?_, hc.2, ?_⟩
      · exact (Int.toNat_of_nonneg hc.1).symm
      · exact (Option.some.injEq _ _).mp h.symm
  · exact Option.noConfusion h

lemma writeLE16at?_eq (buf : List Nat) (i : Int) (v : Nat) (buf2 : List Nat)
    (h : writeLE16at? buf i v = some buf2) :
    ∃ n : Nat, i = (n : Int) ∧ n + 1 < buf.length ∧
      buf2 = (buf.set n (v % 256)).set (n + 1) (v / 256 % 256) := by
  unfold writeLE16at? at h
  match h0 : setByte? buf i v with
  | none => rw [h0] at h; simp at h
  | some buf1 =>
      rw [h0] at h
      simp only [Option.some_bind] at h
      obtain ⟨n, hin, hnlt, hbuf1⟩ := setByte?_eq buf i v buf1 h0
      obtain ⟨n1, hin1, hn1lt, hbuf2⟩ := setByte?_eq buf1 (i + 1) (v / 256) buf2 h
      have hn1 : n1 = n + 1 := by
        rw [hin] at hin1
        omega
      have hlen1 : buf1.length = buf.length := by
        rw [hbuf1]
        exact List.length_set buf n (v % 256)
      refine ⟨n, hin, ?_, ?_⟩
      · omega
      · rw [hbuf2, hbuf1, hn1]

lemma byteAt?_natCast (buf : List Nat) (n : Nat) :
    byteAt? buf (n : Int) = (buf.get? n).map (fun b => b % 256) := by
  unfold byteAt?
  rw [if_pos (by omega)]
  rw [Int.toNat_natCast]

lemma byteAt?_set_ne (buf : List Nat) (n x : Nat) (j : Int) (hj : j ≠ (n : Int)) :
    byteAt? (buf.set n x) j = byteAt? buf j := by
  unfold byteAt?
  by_cases h0 : 0 ≤ j
  · rw [if_pos h0, if_pos h0]
    have hne : n ≠ j.toNat := by omega
    rw [List.get?_set_ne x buf hne]
  · rw [if_neg h0, if_neg h0]

lemma byteAt?_write_frame (buf : List Nat) (i : Int) (v : Nat) (buf2 : List Nat)
    (h : writeLE16at? buf i v = some buf2) (j : Int)
    (h1 : j ≠ i) (h2 : j ≠ i + 1) :
    byteAt? buf2 j = byteAt? buf j := by
  obtain ⟨n, hin, hlt, hbuf2⟩ := writeLE16at?_eq buf i v buf2 h
  subst hin
  rw [hbuf2]
  rw [byteAt?_set_ne _ (n + 1) _ j (by omega)]
  rw [byteAt?_set_ne _ n _ j (by omega)]

lemma readLE16at?_congr (buf buf2 : List Nat) (i : Int)
    (h0 : byteAt? buf2 i = byteAt? buf i)
    (h1 : byteAt? buf2 (i + 1) = byteAt? buf (i + 1)) :
    readLE16at? buf2 i = readLE16at? buf i := by
  unfold readLE16at?
  rw [h0, h1]

lemma readLE32at?_congr (buf buf2 : List Nat) (i : Int)
    (h0 : byteAt? buf2 i = byteAt? buf i)
    (h1 : byteAt? buf2 (i + 1) = byteAt? buf (i + 1))
    (h2 : byteAt? buf2 (i + 2) = byteAt? buf (i + 2))
    (h3 : byteAt? buf2 (i + 3) = byteAt? buf (i + 3)) :
    readLE32at? buf2 i = readLE32at? buf i := by
  unfold readLE32at?
  rw [h0, h1, h2, h3]

lemma length_write (buf : List Nat) (i : Int) (v : Nat) (buf2 : List Nat)
    (h : writeLE16at? buf i v = some buf2) : buf2.length = buf.length := by
  obtain ⟨n, hin, hlt, hbuf2⟩ := writeLE16at?_eq buf i v buf2 h
  rw [hbuf2, List.length_set, List.length_set]

lemma readLE16at?_write (buf : List Nat) (i : Int) (v : Nat) (buf2 : List Nat)
    (h : writeLE16at? buf i v = some buf2) (hv : v < 65536) :
    readLE16at? buf2 i = some v := by
  obtain ⟨n, hin, hlt, hbuf2⟩ := writeLE16at?_eq buf i v buf2 h
  subst hin
  have hb0 : byteAt? buf2 (n : Int) = some (v % 256) := by
    rw [hbuf2]
    rw [byteAt?_natCast]
    rw [List.get?_set_ne _ _ (by omega : n + 1 ≠ n)]
    rw [List.get?_set_eq_of_lt _ (by omega)]
    simp only [Option.map_some', Option.some.injEq]
    omega
  have hb1 : byteAt? buf2 ((n : Int) + 1) = some (v / 256 % 256) := by
    have hcast : (n : Int) + 1 = ((n + 1 : Nat) : Int) := by push_cast; ring
    rw [hcast, hbuf2, byteAt?_natCast]
    rw [List.get?_set_eq_of_lt _ (by rw [List.length_set]; omega)]
    simp only [Option.map_some', Option.some.injEq]
    omega
  unfold readLE16at?
  rw [hb0, hb1]
  simp only [Option.some_bind, Option.map_some', Option.some.injEq]
  omega

lemma land_mod65536_eq (old : Nat) :
    (old &&& NOT_DYNAMIC_BASE_INT) % 65536 = old &&& 65471 := by
  unfold NOT_DYNAMIC_BASE_INT
  apply Nat.eq_of_testBit_eq
  intro i
  rw [show (65536 : Nat) = 2 ^ 16 by decide]
  rw [Nat.testBit_mod_two_pow, Nat.testBit_land, Nat.testBit_land]
  rcases Nat.lt_or_ge i 16 with hi | hi
  · have hcongr : Nat.testBit 4294967231 i = Nat.testBit 65471 i := by
      interval_cases i <;> decide
    simp [hi, hcongr]
  · have hlt : (65471 : Nat) < 2 ^ i :=
      lt_of_lt_of_le (by decide) (Nat.pow_le_pow_right (by decide) hi)
    rw [Nat.testBit_eq_false_of_lt hlt]
    simp [Nat.not_lt.mpr hi]

lemma cleared_bit_zero (old : Nat) : (old &&& 65471) &&& DYNAMIC_BASE = 0 := by
  unfold DYNAMIC_BASE
  rw [Nat.land_assoc]
  rw [show (65471 : Nat) &&& 64 = 0 by decide]
  exact Nat.and_zero old

lemma cleared_bit_zero' (old : Nat) :
    ((old &&& NOT_DYNAMIC_BASE_INT) % 65536) &&& DYNAMIC_BASE = 0 := by
  rw [land_mod65536_eq]
  exact cleared_bit_zero old

lemma fix_shape (buf : List Nat) (r : FixRet) (buf2 : List Nat)
    (h : fix_pe_clear_dynamic_base buf = some (r, buf2)) :
    (∃ e, r = ⟨false, false, some e⟩ ∧ buf2 = buf) ∨
    (r = ⟨true, false, none⟩ ∧ buf2 = buf) ∨
    (r = ⟨true, true, none⟩ ∧ ModSpec buf buf2) := by
  unfold fix_pe_clear_dynamic_base at h
  split at h
  · -- too small
    simp only [Option.some.injEq, Prod.mk.injEq] at h
    exact Or.inl ⟨FixError.TooSmall, h.1.symm, h.2.symm⟩
  · rename_i hlen
    split at h
    · exact Option.noConfusion h
    · rename_i e_magic hmz
      split at h
      · -- MZ missing
        simp only [Option.some.injEq, Prod.mk.injEq] at h
        exact Or.inl ⟨FixError.NotAPEFile, h.1.symm, h.2.symm⟩
      · rename_i hne
        have he : e_magic = IMAGE_DOS_SIGNATURE := not_not.mp hne
        split at h
        · exact Option.noConfusion h
        · rename_i u hu
          split at h
          · -- invalid e_lfanew
            simp only [Option.some.injEq, Prod.mk.injEq] at h
            exact Or.inl ⟨FixError.InvalidHeaderOffset, h.1.symm, h.2.symm⟩
          · rename_i hchk
            split at h
            · exact Option.noConfusion h
            · rename_i sig hsig
              split at h
              · -- PE signature missing
                simp only [Option.some.injEq, Prod.mk.injEq] at h
                exact Or.inl ⟨FixError.MissingPESignature, h.1.symm, h.2.symm⟩
              · rename_i hsne
                have hse : sig = IMAGE_NT_SIGNATURE := not_not.mp hsne
                -- e_lfanew is nonnegative, else the signature load was out of bounds
                have hu32 : u < 4294967296 := readLE32at?_lt _ _ _ hu
                have hpos : 0 ≤ signedOfU32 u := readLE32at?_nonneg _ _ _ hsig
                have h31 : u < 2147483648 := by
                  by_contra hcon
                  push_neg at hcon
                  exact absurd hpos (not_le.mpr (signedOfU32_neg u hcon hu32))
                have hseq : signedOfU32 u = (u : Int) := signedOfU32_small u h31
                rw [hseq] at hsig
                rw [sizeof_nt64_eq, check_small u h31] at hchk
                simp only [not_lt] at hchk
                rw [sizeof_dos_eq, not_lt] at hlen
                simp only [off_e_lfanew_eq, Nat.cast_ofNat] at hu
                have hmz' : readLE16at? buf 0 = some IMAGE_DOS_SIGNATURE := he ▸ hmz
                have hsig' : readLE32at? buf (u : Int) = some IMAGE_NT_SIGNATURE :=
                  hse ▸ hsig
                split at h
                · exact Option.noConfusion h
                · rename_i magic hmg
                  rw [hseq] at hmg
                  simp only [off_OptionalHeader_eq, Nat.cast_ofNat] at hmg
                  split at h
                  · rename_i hm64
                    split at h
                    · exact Option.noConfusion h
                    · rename_i old hold
                      rw [hseq] at hold
                      simp only [off_dll64_eq, Nat.cast_ofNat] at hold
                      split at h
                      · rename_i hbit
                        split at h
                        · exact Option.noConfusion h
                        · rename_i bufw hw
                          rw [hseq] at hw
                          simp only [off_dll64_eq, Nat.cast_ofNat] at hw
                          simp only [Option.some.injEq, Prod.mk.injEq] at h
                          refine Or.inr (Or.inr ⟨h.1.symm, u, old, hlen, hmz', hu,
                            h31, hchk, hsig', ⟨magic, hmg, Or.inl hm64⟩, hold, hbit,
                            ?_⟩)
                          rw [h.2] at hw
                          exact hw
                      · rename_i hbit
                        simp only [Option.some.injEq, Prod.mk.injEq] at h
                        exact Or.inr (Or.inl ⟨h.1.symm, h.2.symm⟩)
                  · rename_i hnot64
                    split at h
                    · rename_i hm32
                      split at h
                      · exact Option.noConfusion h
                      · rename_i old hold
                        rw [hseq] at hold
                        simp only [off_dll32_eq, Nat.cast_ofNat] at hold
                        split at h
                        · rename_i hbit
                          split at h
                          · exact Option.noConfusion h
                          · rename_i bufw hw
                            rw [hseq] at hw
                            simp only [off_dll32_eq, Nat.cast_ofNat] at hw
                            simp only [Option.some.injEq, Prod.mk.injEq] at h
                            refine Or.inr (Or.inr ⟨h.1.symm, u, old, hlen, hmz', hu,
                              h31, hchk, hsig', ⟨magic, hmg, Or.inr hm32⟩, hold, hbit,
                              ?_⟩)
                            rw [h.2] at hw
                            exact hw
                        · rename_i hbit
                          simp only [Option.some.injEq, Prod.mk.injEq] at h
                          exact Or.inr (Or.inl ⟨h.1.symm, h.2.symm⟩)
                    · -- unknown optional header type
                      simp only [Option.some.injEq, Prod.mk.injEq] at h
                      exact Or.inl ⟨FixError.UnknownOptionalHeaderType, h.1.symm, h.2.symm⟩

lemma rerun_unmodified (buf buf2 : List Nat) (hms : ModSpec buf buf2) :
    fix_pe_clear_dynamic_base buf2 = some (⟨true, false, none⟩, buf2) := by
  obtain ⟨u, old, hlen, hmz, hu, h31, hbound, hsig, ⟨m, hmg, hm⟩, hold, hbit, hw⟩ := hms
  have hlen2 : buf2.length = buf.length := length_write _ _ _ _ hw
  have hframe : ∀ j : Int, j ≠ (u : Int) + 94 → j ≠ (u : Int) + 94 + 1 →
      byteAt? buf2 j = byteAt? buf j :=
    fun j hj1 hj2 => byteAt?_write_frame buf ((u : Int) + 94) _ buf2 hw j hj1 hj2
  have hmz2 : readLE16at? buf2 0 = some IMAGE_DOS_SIGNATURE := by
    rw [readLE16at?_congr buf buf2 0 (hframe 0 (by omega) (by omega))
      (hframe (0 + 1) (by omega) (by omega))]
    exact hmz
  have hu2 : readLE32at? buf2 60 = some u := by
    rw [readLE32at?_congr buf buf2 60 (hframe 60 (by omega) (by omega))
      (hframe (60 + 1) (by omega) (by omega)) (hframe (60 + 2) (by omega) (by omega))
      (hframe (60 + 3) (by omega) (by omega))]
    exact hu
  have hsig2 : readLE32at? buf2 (u : Int) = some IMAGE_NT_SIGNATURE := by
    rw [readLE32at?_congr buf buf2 (u : Int) (hframe _ (by omega) (by omega))
      (hframe _ (by omega) (by omega)) (hframe _ (by omega) (by omega))
      (hframe _ (by omega) (by omega))]
    exact hsig
  have hmg2 : readLE16at? buf2 ((u : Int) + 24) = some m := by
    rw [readLE16at?_congr buf buf2 _ (hframe _ (by omega) (by omega))
      (hframe _ (by omega) (by omega))]
    exact hmg
  have hold2 : readLE16at? buf2 ((u : Int) + 94)
      = some ((old &&& NOT_DYNAMIC_BASE_INT) % 65536) :=
    readLE16at?_write _ _ _ _ hw (Nat.mod_lt _ (by omega))
  have hbit2 : ¬ ((old &&& NOT_DYNAMIC_BASE_INT) % 65536 &&& DYNAMIC_BASE ≠ 0) :=
    fun hcon => hcon (cleared_bit_zero' old)
  unfold fix_pe_clear_dynamic_base
  rw [sizeof_dos_eq, sizeof_nt64_eq]
  rw [if_neg (show ¬ buf2.length < 64 by omega)]
  simp only [off_e_lfanew_eq, off_OptionalHeader_eq, off_dll64_eq, off_dll32_eq,
    Nat.cast_ofNat, hmz2]
  rw [if_neg (show ¬ (IMAGE_DOS_SIGNATURE ≠ IMAGE_DOS_SIGNATURE) by simp)]
  simp only [hu2]
  rw [check_small u h31]
  rw [if_neg (show ¬ (u + 264 > buf2.length) by omega)]
  rw [signedOfU32_small u h31]
  simp only [hsig2]
  rw [if_neg (show ¬ (IMAGE_NT_SIGNATURE ≠ IMAGE_NT_SIGNATURE) by simp)]
  simp only [hmg2]
  rcases hm with hm64 | hm32
  · rw [if_pos hm64]
    simp only [hold2]
    rw [if_neg hbit2]
  · rw [if_neg (show ¬ (m = HDR64_MAGIC) by rw [hm32]; decide)]
    rw [if_pos hm32]
    simp only [hold2]
    rw [if_neg hbit2]

/-- Claim C1, counterexample: the DllCharacteristics offset of the PE32 layout
is NOT 4 bytes below the PE32+ one, and the synthetic PE32 and PE32+ buffers
with identical e_lfanew are mutated at the SAME absolute offset, not different
ones. -/
theorem pe32_offset_not_4_less :
    off_DllCharacteristics32 + 4 ≠ off_DllCharacteristics64 ∧
    (fix_pe_clear_dynamic_base (pe32buf 64 1)).map
        (fun p => diffIndices (pe32buf 64 1) p.2)
      = (fix_pe_clear_dynamic_base (pe64buf 64 1)).map
        (fun p => diffIndices (pe64buf 64 1) p.2) := by
  refine ⟨by decide, by decide⟩

/-- Claim C1, amended: the absolute offset at which the patch operation reads
and clears DllCharacteristics is the SAME for magic 0x10B and magic 0x20B
(offset 70 inside either optional-header layout, absolute e_lfanew + 94),
because the 32-bit layout's extra 4-byte BaseOfData is exactly compensated by
the 64-bit layout's 8-byte ImageBase; on the synthetic PE32 and PE32+ buffers
with identical e_lfanew = 64 the mutated byte lies at the same absolute
offset 158 in both. -/
theorem dll_offset_same_both_layouts :
    off_DllCharacteristics32 = off_DllCharacteristics64 ∧
    (fix_pe_clear_dynamic_base (pe32buf 64 1)).map
        (fun p => diffIndices (pe32buf 64 1) p.2) = some [158] ∧
    (fix_pe_clear_dynamic_base (pe64buf 64 1)).map
        (fun p => diffIndices (pe64buf 64 1) p.2) = some [158] := by
  refine ⟨by decide, by decide, by decide⟩

/-- Claim C2 (code bug): on a 64-byte buffer with the DOS signature whose
stored e_lfanew is 0xFFFFFF38 (the signed LONG -200), the size_t bounds check
(size_t)e_lfanew + sizeof(IMAGE_NT_HEADERS64) wraps modulo 2^64 to 64, which
is not greater than the size 64, so the check passes and the code then reads
the NT signature 200 bytes before the buffer: an out-of-bounds access (none
in this model), contradicting the claim that every access after the explicit
checks is in bounds and every failure is an explicit result value. -/
theorem oob_read_on_wrapped_e_lfanew :
    wrapBuf200.length = 64 ∧
    readLE32at? wrapBuf200 60 = some 4294967096 ∧
    signedOfU32 4294967096 = -200 ∧
    (toSizeT (signedOfU32 4294967096) + sizeof_IMAGE_NT_HEADERS64) % SIZE_T_MOD = 64 ∧
    fix_pe_clear_dynamic_base wrapBuf200 = none := by
  refine ⟨by decide, by decide, by decide, by decide, by decide⟩

/-- Claim C7 (confirmed): every buffer shorter than 64 bytes, the size of the
DOS header, fails with TooSmall and the buffer is returned unmutated. -/
theorem too_small_fails (buf : List Nat) (h : buf.length < 64) :
    fix_pe_clear_dynamic_base buf
      = some (⟨false, false, some FixError.TooSmall⟩, buf) := by
  unfold fix_pe_clear_dynamic_base
  rw [sizeof_dos_eq]
  rw [if_pos h]

/-- Witness for C7 at the ten-zero-byte buffer. -/
theorem too_small_fails_witness :
    fix_pe_clear_dynamic_base zeros10
      = some (⟨false, false, some FixError.TooSmall⟩, zeros10) :=
  too_small_fails zeros10 (by decide)

/-- Claim C8, counterexample: the ten-zero-byte buffer does not start with the
bytes M, Z, yet the operation returns TooSmall, not NotAPEFile, because the
length check runs first. -/
theorem short_non_mz_gets_TooSmall :
    ¬ (byteAt? zeros10 0 = some 77 ∧ byteAt? zeros10 1 = some 90) ∧
    fix_pe_clear_dynamic_base zeros10
      = some (⟨false, false, some FixError.TooSmall⟩, zeros10) ∧
    fix_pe_clear_dynamic_base zeros10
      ≠ some (⟨false, false, some FixError.NotAPEFile⟩, zeros10) := by
  refine ⟨by decide, by decide, by decide⟩

/-- Claim C8, amended: every buffer of length at least 64 whose first two
bytes are not M (77) and Z (90) fails with NotAPEFile (buffers shorter than
64 bytes fail with TooSmall first). -/
theorem non_mz_fails_NotAPEFile (buf : List Nat)
    (h64 : 64 ≤ buf.length)
    (hnmz : ¬ (byteAt? buf 0 = some 77 ∧ byteAt? buf 1 = some 90)) :
    fix_pe_clear_dynamic_base buf
      = some (⟨false, false, some FixError.NotAPEFile⟩, buf) := by
  have h0n : (0 : Int) = ((0 : Nat) : Int) := by simp
  have h1n : (1 : Int) = ((1 : Nat) : Int) := by simp
  obtain ⟨x0, hx0⟩ : ∃ x, buf.get? 0 = some x := by
    rw [List.get?_eq_get (by omega)]
    exact ⟨_, rfl⟩
  obtain ⟨x1, hx1⟩ : ∃ x, buf.get? 1 = some x := by
    rw [List.get?_eq_get (by omega)]
    exact ⟨_, rfl⟩
  have hb0 : byteAt? buf 0 = some (x0 % 256) := by
    rw [h0n, byteAt?_natCast, hx0]
    rfl
  have hb1 : byteAt? buf 1 = some (x1 % 256) := by
    rw [h1n, byteAt?_natCast, hx1]
    rfl
  have hb1' : byteAt? buf ((0 : Int) + 1) = some (x1 % 256) := by
    rw [show (0 : Int) + 1 = 1 by norm_num]
    exact hb1
  have hread : readLE16at? buf 0 = some (x0 % 256 + 256 * (x1 % 256)) := by
    unfold readLE16at?
    rw [hb0, hb1']
    rfl
  have hne : x0 % 256 + 256 * (x1 % 256) ≠ IMAGE_DOS_SIGNATURE := by
    intro hc
    unfold IMAGE_DOS_SIGNATURE at hc
    have e0 : x0 % 256 = 77 := by omega
    have e1 : x1 % 256 = 90 := by omega
    exact hnmz ⟨by rw [hb0, e0], by rw [hb1, e1]⟩
  unfold fix_pe_clear_dynamic_base
  rw [sizeof_dos_eq]
  rw [if_neg (by omega)]
  simp only [hread]
  rw [if_pos hne]

/-- Witness for the amended C8 at the 64-zero-byte buffer. -/
theorem non_mz_fails_NotAPEFile_witness :
    fix_pe_clear_dynamic_base zeros64
      = some (⟨false, false, some FixError.NotAPEFile⟩, zeros64) :=
  non_mz_fails_NotAPEFile zeros64 (by decide) (by decide)

/-- Claim C9 (confirmed): whenever the operation returns a failure (the C
function returns false), the buffer is byte-for-byte unchanged and the
reported modified flag is false. -/
theorem failure_leaves_buffer_unchanged (buf : List Nat) (r : FixRet)
    (buf2 : List Nat)
    (h : fix_pe_clear_dynamic_base buf = some (r, buf2)) (hf : r.ok = false) :
    buf2 = buf ∧ r.modified = false := by
  rcases fix_shape buf r buf2 h with ⟨e, hr, hb⟩ | ⟨hr, hb⟩ | ⟨hr, _⟩
  · subst hr
    exact ⟨hb, rfl⟩
  · subst hr
    exact Bool.noConfusion hf
  · subst hr
    exact Bool.noConfusion hf

/-- Witness for C9 at the ten-zero-byte buffer. -/
theorem failure_leaves_buffer_unchanged_witness :
    zeros10 = zeros10 ∧
    (⟨false, false, some FixError.TooSmall⟩ : FixRet).modified = false :=
  failure_leaves_buffer_unchanged zeros10 ⟨false, false, some FixError.TooSmall⟩
    zeros10 (by decide) rfl

/-- Claim C10 (confirmed): on the minimal valid PE32+ buffer with
DllCharacteristics = 0x0140 the operation reports modified and the field
becomes 0x0100; on the same buffer with DllCharacteristics = 0x0100 it
reports unmodified and the buffer is unchanged. -/
theorem pe64_concrete_scenarios :
    readLE16at? (pe64buf 64 1) 158 = some 320 ∧
    fix_pe_clear_dynamic_base (pe64buf 64 1)
      = some (⟨true, true, none⟩, pe64buf 0 1) ∧
    readLE16at? (pe64buf 0 1) 158 = some 256 ∧
    fix_pe_clear_dynamic_base (pe64buf 0 1)
      = some (⟨true, false, none⟩, pe64buf 0 1) := by
  refine ⟨by decide, by decide, by decide, by decide⟩

/-- Claim C3 (confirmed): whenever the operation reports modified, the new
16-bit little-endian value at the DllCharacteristics offset e_lfanew + 94 is
the old value AND the 16-bit complement of 0x0040 (65471), and testing bit
0x0040 of the read-back value yields 0. -/
theorem modified_clears_dynamic_base (buf : List Nat) (r : FixRet)
    (buf2 : List Nat)
    (h : fix_pe_clear_dynamic_base buf = some (r, buf2))
    (hm : r.modified = true) :
    ∃ u old,
      readLE32at? buf 60 = some u ∧
      readLE16at? buf ((u : Int) + 94) = some old ∧
      old &&& DYNAMIC_BASE ≠ 0 ∧
      readLE16at? buf2 ((u : Int) + 94) = some (old &&& 65471) ∧
      (old &&& 65471) &&& DYNAMIC_BASE = 0 := by
  rcases fix_shape buf r buf2 h with ⟨e, hr, _⟩ | ⟨hr, _⟩ | ⟨hr, hms⟩
  · subst hr
    exact Bool.noConfusion hm
  · subst hr
    exact Bool.noConfusion hm
  · obtain ⟨u, old, hlen, hmz, hu, h31, hbound, hsig, hmg, hold, hbit, hw⟩ := hms
    refine ⟨u, old, hu, hold, hbit, ?_, cleared_bit_zero old⟩
    have hr2 := readLE16at?_write _ _ _ _ hw (Nat.mod_lt _ (by omega))
    rw [land_mod65536_eq] at hr2
    exact hr2

/-- Witness for C3 at the minimal PE32+ buffer with DllCharacteristics
0x0140. -/
theorem modified_clears_dynamic_base_witness :
    ∃ u old,
      readLE32at? (pe64buf 64 1) 60 = some u ∧
      readLE16at? (pe64buf 64 1) ((u : Int) + 94) = some old ∧
      old &&& DYNAMIC_BASE ≠ 0 ∧
      readLE16at? (pe64buf 0 1) ((u : Int) + 94) = some (old &&& 65471) ∧
      (old &&& 65471) &&& DYNAMIC_BASE = 0 :=
  modified_clears_dynamic_base (pe64buf 64 1) ⟨true, true, none⟩ (pe64buf 0 1)
    (by decide) rfl

/-- Claim C4 (confirmed): whenever the operation reports modified, the length
is unchanged and every byte other than the two at the DllCharacteristics
offset e_lfanew + 94 is unchanged. -/
theorem modified_touches_only_dll_bytes (buf : List Nat) (r : FixRet)
    (buf2 : List Nat)
    (h : fix_pe_clear_dynamic_base buf = some (r, buf2))
    (hm : r.modified = true) :
    ∃ u,
      readLE32at? buf 60 = some u ∧
      buf2.length = buf.length ∧
      ∀ i : Nat, i ≠ u + 94 → i ≠ u + 95 → buf2.get? i = buf.get? i := by
  rcases fix_shape buf r buf2 h with ⟨e, hr, _⟩ | ⟨hr, _⟩ | ⟨hr, hms⟩
  · subst hr
    exact Bool.noConfusion hm
  · subst hr
    exact Bool.noConfusion hm
  · obtain ⟨u, old, hlen, hmz, hu, h31, hbound, hsig, hmg, hold, hbit, hw⟩ := hms
    obtain ⟨n, hin, hlt, hbuf2⟩ := writeLE16at?_eq _ _ _ _ hw
    have hn : n = u + 94 := by omega
    subst hn
    refine ⟨u, hu, ?_, ?_⟩
    · rw [hbuf2, List.length_set, List.length_set]
    · intro i hi1 hi2
      rw [hbuf2]
      rw [List.get?_set_ne _ _ (show u + 94 + 1 ≠ i by omega)]
      rw [List.get?_set_ne _ _ (show u + 94 ≠ i by omega)]

/-- Witness for C4 at the minimal PE32+ buffer with DllCharacteristics
0x0140. -/
theorem modified_touches_only_dll_bytes_witness :
    ∃ u,
      readLE32at? (pe64buf 64 1) 60 = some u ∧
      (pe64buf 0 1).length = (pe64buf 64 1).length ∧
      ∀ i : Nat, i ≠ u + 94 → i ≠ u + 95 →
        (pe64buf 0 1).get? i = (pe64buf 64 1).get? i :=
  modified_touches_only_dll_bytes (pe64buf 64 1) ⟨true, true, none⟩ (pe64buf 0 1)
    (by decide) rfl

/-- Claim C5 (confirmed): applying the operation to the buffer a first
application produced returns that same buffer; the second application reports
not modified, it equals Unmodified success whenever the first application
succeeded, and it repeats the first result whenever the first application
failed. -/
theorem patch_idempotent (buf : List Nat) (r : FixRet) (buf2 : List Nat)
    (h : fix_pe_clear_dynamic_base buf = some (r, buf2)) :
    ∃ r2 : FixRet,
      fix_pe_clear_dynamic_base buf2 = some (r2, buf2) ∧
      r2.modified = false ∧
      (r.ok = true → r2 = ⟨true, false, none⟩) ∧
      (r.ok = false → r2 = r) := by
  rcases fix_shape buf r buf2 h with ⟨e, hr, hb⟩ | ⟨hr, hb⟩ | ⟨hr, hms⟩
  · subst hr
    subst hb
    exact ⟨⟨false, false, some e⟩, h, rfl, fun hok => Bool.noConfusion hok,
      fun _ => rfl⟩
  · subst hr
    subst hb
    exact ⟨⟨true, false, none⟩, h, rfl, fun _ => rfl,
      fun hok => Bool.noConfusion hok⟩
  · subst hr
    exact ⟨⟨true, false, none⟩, rerun_unmodified buf buf2 hms, rfl, fun _ => rfl,
      fun hok => Bool.noConfusion hok⟩

/-- Witness for C5 at the minimal PE32+ buffer with DllCharacteristics
0x0140. -/
theorem patch_idempotent_witness :
    ∃ r2 : FixRet,
      fix_pe_clear_dynamic_base (pe64buf 0 1) = some (r2, pe64buf 0 1) ∧
      r2.modified = false ∧
      ((⟨true, true, none⟩ : FixRet).ok = true → r2 = ⟨true, false, none⟩) ∧
      ((⟨true, true, none⟩ : FixRet).ok = false → r2 = ⟨true, true, none⟩) :=
  patch_idempotent (pe64buf 64 1) ⟨true, true, none⟩ (pe64buf 0 1) (by decide)

/-- Claim C6, counterexample: a 64-byte buffer with the DOS signature stores
e_lfanew = 0xFFFFFEF8 (4294967032 unsigned, -264 signed); read unsigned,
4294967032 + 264 exceeds the length 64, so the claim demands an
InvalidHeaderOffset failure, but the code sign-extends, its size_t sum wraps
to 0, the check passes, and the execution goes out of bounds (none) instead
of failing with InvalidHeaderOffset. -/
theorem invalid_offset_unsigned_claim_false :
    wrapBuf264.length = 64 ∧
    readLE32at? wrapBuf264 60 = some 4294967032 ∧
    64 < 4294967032 + 264 ∧
    fix_pe_clear_dynamic_base wrapBuf264 = none ∧
    fix_pe_clear_dynamic_base wrapBuf264
      ≠ some (⟨false, false, some FixError.InvalidHeaderOffset⟩, wrapBuf264) := by
  refine ⟨by decide, by decide, by decide, by decide, by decide⟩

/-- Claim C6, amended: for every buffer of length at least 64 whose first two
bytes are the DOS signature, the operation fails with InvalidHeaderOffset
exactly when e_lfanew read as a SIGNED 32-bit integer, cast (sign-extended) to
64-bit size_t, plus sizeof(IMAGE_NT_HEADERS64) = 264 computed modulo 2^64,
exceeds the buffer length; the conservative 64-bit layout size is used
regardless of the later PE32 / PE32+ classification. -/
theorem invalid_offset_iff_signed_check (buf : List Nat) (u : Nat)
    (h64 : 64 ≤ buf.length)
    (hmz : readLE16at? buf 0 = some IMAGE_DOS_SIGNATURE)
    (hu : readLE32at? buf 60 = some u) :
    fix_pe_clear_dynamic_base buf
        = some (⟨false, false, some FixError.InvalidHeaderOffset⟩, buf) ↔
      buf.length <
        (toSizeT (signedOfU32 u) + sizeof_IMAGE_NT_HEADERS64) % SIZE_T_MOD := by
  constructor
  · intro h
    unfold fix_pe_clear_dynamic_base at h
    split at h
    · rename_i hc
      rw [sizeof_dos_eq] at hc
      omega
    · split at h
      · exact Option.noConfusion h
      · rename_i e_magic hmz'
        split at h
        · simp at h
        · split at h
          · exact Option.noConfusion h
          · rename_i u' hu'
            rw [off_e_lfanew_eq] at hu'
            simp only [Nat.cast_ofNat] at hu'
            have huu : u' = u := by
              have hss := hu'.symm.trans hu
              simpa using hss
            subst huu
            split at h
            · rename_i hc
              exact hc
            · split at h
              · exact Option.noConfusion h
              · rename_i sig hsig
                split at h
                · simp at h
                · split at h
                  · exact Option.noConfusion h
                  · rename_i magic hmg
                    split at h
                    · split at h
                      · exact Option.noConfusion h
                      · rename_i old hold
                        split at h
                        · split at h
                          · exact Option.noConfusion h
                          · simp at h
                        · simp at h
                    · split at h
                      · split at h
                        · exact Option.noConfusion h
                        · rename_i old hold
                          split at h
                          · split at h
                            · exact Option.noConfusion h
                            · simp at h
                          · simp at h
                      · simp at h
  · intro hcond
    unfold fix_pe_clear_dynamic_base
    rw [sizeof_dos_eq]
    rw [if_neg (by omega)]
    simp only [hmz]
    rw [if_neg (show ¬ (IMAGE_DOS_SIGNATURE ≠ IMAGE_DOS_SIGNATURE) by simp)]
    simp only [off_e_lfanew_eq, Nat.cast_ofNat, hu]
    rw [if_pos hcond]

/-- Witness for the amended C6: a 64-byte buffer whose e_lfanew is 4096. -/
theorem invalid_offset_iff_signed_check_witness :
    fix_pe_clear_dynamic_base farLfanewBuf
      = some (⟨false, false, some FixError.InvalidHeaderOffset⟩, farLfanewBuf) :=
  (invalid_offset_iff_signed_check farLfanewBuf 4096 (by decide) (by decide)
    (by decide)).mpr (by decide)
